import Mathlib

/-!
Shallow embedding of the MAB AI Strategies Twitter SEO agent (JavaScript) in
Lean 4, used to settle the claims of the specification against the code.

Conventions of the embedding:
* JavaScript timestamps (`Date` values) are modelled as `Int` milliseconds
  since the Unix epoch; the runtime environment is a serverless worker whose
  local timezone is UTC, so the local-time getters of part `posting-schedule`
  coincide with the UTC getters.
* Calendar conversions use the standard civil-from-days and days-from-civil
  algorithms over the proleptic Gregorian calendar, matching the ECMAScript
  `Date.UTC` semantics (months here are 1-based; the JS sources pass 0-based
  month indices, e.g. 2 for March, translated accordingly).
* JavaScript strings are Lean `String`s, worked on as `List Char`.
* Asynchronous network calls are parameterised by an explicit outcome value
  (success payload or thrown error), so a `try`/`catch` becomes a `match`.
-/

/-! ## Calendar arithmetic (ECMAScript Date semantics, UTC) -/

/-- Days since 1970-01-01 of a civil date (proleptic Gregorian, month 1-based). -/
def daysFromCivil (y m d : Int) : Int :=
  let y' := if m ≤ 2 then y - 1 else y
  let era := Int.ediv y' 400
  let yoe := y' - era * 400
  let mp := if m > 2 then m - 3 else m + 9
  let doy := Int.ediv (153 * mp + 2) 5 + d - 1
  let doe := yoe * 365 + Int.ediv yoe 4 - Int.ediv yoe 100 + doy
  era * 146097 + doe - 719468

/-- Civil date (year, month 1-based, day) of a days-since-epoch count. -/
def civilFromDays (z : Int) : Int × Int × Int :=
  let z' := z + 719468
  let era := Int.ediv z' 146097
  let doe := z' - era * 146097
  let yoe := Int.ediv (doe - Int.ediv doe 1460 + Int.ediv doe 36524 - Int.ediv doe 146096) 365
  let y := yoe + era * 400
  let doy := doe - (365 * yoe + Int.ediv yoe 4 - Int.ediv yoe 100)
  let mp := Int.ediv (5 * doy + 2) 153
  let d := doy - Int.ediv (153 * mp + 2) 5 + 1
  let m := if mp < 10 then mp + 3 else mp - 9
  (if m ≤ 2 then y + 1 else y, m, d)

def msPerHour : Int := 3600000

def msPerDay : Int := 86400000

/-- Epoch milliseconds of a UTC civil datetime (`Date.UTC`, month 1-based). -/
def epochUTC (y m d h min : Int) : Int :=
  daysFromCivil y m d * msPerDay + h * msPerHour + min * 60000

/-- `Date.prototype.getUTCFullYear`. -/
def getUTCFullYear (t : Int) : Int :=
  (civilFromDays (Int.ediv t msPerDay)).1

/-- `Date.prototype.getUTCHours`. -/
def getUTCHours (t : Int) : Int :=
  Int.emod (Int.ediv t msPerHour) 24

/-- `Date.prototype.getUTCDay` (0 = Sunday): 1970-01-01 was a Thursday. -/
def getUTCDay (t : Int) : Int :=
  Int.emod (Int.ediv t msPerDay + 4) 7

/-! ## date-utils.js -/

/-- `isEasternDST` from `src/utils/date-utils.js`: true between the second
Sunday of March 07:00 UTC (2 AM EST) and the first Sunday of November
06:00 UTC (2 AM EDT) of the timestamp's UTC year. -/
def isEasternDST (t : Int) : Bool :=
  let year := getUTCFullYear t
  let marchFirstDay := getUTCDay (epochUTC year 3 1 0 0)
  let daysToSecondSunday := Int.emod (7 - marchFirstDay) 7 + 7
  let dstStart := epochUTC year 3 (1 + daysToSecondSunday) 7 0
  let novFirstDay := getUTCDay (epochUTC year 11 1 0 0)
  let daysToFirstSunday := Int.emod (7 - novFirstDay) 7
  let dstEnd := epochUTC year 11 (1 + daysToFirstSunday) 6 0
  decide (dstStart ≤ t) && decide (t < dstEnd)

/-- `isEasternDST` from the posting-schedule constants module (the second
implementation).  It uses local-time getters (local = UTC on the worker
runtime) and computes the DST start as `new Date(year, 2, 8 + (7 - d) % 7 + 7)`
and the end as `new Date(year, 10, 1 + (7 - d) % 7)`, both at local midnight. -/
def scheduleIsEasternDST (t : Int) : Bool :=
  let year := getUTCFullYear t
  let marchFirstDay := getUTCDay (epochUTC year 3 1 0 0)
  let dstStart := epochUTC year 3 (8 + Int.emod (7 - marchFirstDay) 7 + 7) 0 0
  let novFirstDay := getUTCDay (epochUTC year 11 1 0 0)
  let dstEnd := epochUTC year 11 (1 + Int.emod (7 - novFirstDay) 7) 0 0
  decide (dstStart ≤ t) && decide (t < dstEnd)

/-- `hoursBetween(date1, date2) = (date2 - date1) / 3600000`, as an exact
rational (the JS engines compute in binary floating point; the values the
program compares against are small integers where the two agree). -/
def hoursBetween (date1 date2 : Int) : ℚ :=
  ((date2 - date1 : Int) : ℚ) / (3600000 : ℚ)

/-- `calculateRecencyScore` from `src/utils/date-utils.js`, with the implicit
`new Date()` made explicit as the `now` argument. -/
def calculateRecencyScore (publishDate now : Int) : Nat :=
  let hoursAgo := hoursBetween publishDate now
  if hoursAgo < 0 then 0
  else if hoursAgo ≤ 6 then 20
  else if hoursAgo ≤ 12 then 15
  else if hoursAgo ≤ 18 then 10
  else if hoursAgo ≤ 24 then 5
  else 0

/-! ## Text utilities (src/utils/text-utils.js) -/

/-- JavaScript regex `\s` character class (also used by `String.prototype.trim`). -/
def isJsSpace (c : Char) : Bool :=
  c == ' ' || c == '\t' || c == '\n' || c == '\r' || c.val == 11 || c.val == 12 ||
  c.val == 0xa0 || c.val == 0x1680 || (0x2000 ≤ c.val && c.val ≤ 0x200a) ||
  c.val == 0x2028 || c.val == 0x2029 || c.val == 0x202f || c.val == 0x205f ||
  c.val == 0x3000 || c.val == 0xfeff

/-- JavaScript regex `\w` character class (ASCII word character). -/
def isWordChar (c : Char) : Bool :=
  c.isAlphanum || c == '_'

/-- If `l` begins with the literal `pre`, return the remainder. -/
def dropLit : List Char → List Char → Option (List Char)
  | [], l => some l
  | _ :: _, [] => none
  | p :: ps, c :: cs => if c = p then dropLit ps cs else none

/-- One attempt of the JS regex `https?:\/\/[^\s]+` at the head of `l`: on
success, the (greedy) match and the remainder of the input. -/
def urlMatchAt (l : List Char) : Option (List Char × List Char) :=
  match dropLit ("https://".data) l with
  | some rest =>
    match rest with
    | [] => none
    | c :: _ =>
      if isJsSpace c then none
      else some ("https://".data ++ rest.takeWhile (fun x => !isJsSpace x),
                 rest.dropWhile (fun x => !isJsSpace x))
  | none =>
    match dropLit ("http://".data) l with
    | some rest =>
      match rest with
      | [] => none
      | c :: _ =>
        if isJsSpace c then none
        else some ("http://".data ++ rest.takeWhile (fun x => !isJsSpace x),
                   rest.dropWhile (fun x => !isJsSpace x))
    | none => none

/-- Global scan of `text.match(/https?:\/\/[^\s]+/g)`: leftmost matches,
resuming after each match.  Fuel-indexed so the recursion is structural;
`findUrls` instantiates the fuel with the input length, which suffices
because every step consumes at least one character. -/
def findUrlsGo : Nat → List Char → List (List Char)
  | 0, _ => []
  | _ + 1, [] => []
  | fuel + 1, c :: cs =>
    match urlMatchAt (c :: cs) with
    | some (url, rest) => url :: findUrlsGo fuel rest
    | none => findUrlsGo fuel cs

/-- All matches of `https?:\/\/[^\s]+` in `l`, in order. -/
def findUrls (l : List Char) : List (List Char) :=
  findUrlsGo l.length l

def TWITTER_URL_LENGTH : Int := 23

def MAX_TWEET_LENGTH : Int := 280

/-- `calculateTweetLength` from `src/utils/text-utils.js`: the text length with
every matched URL counted as `TWITTER_URL_LENGTH` instead of its own length. -/
def calculateTweetLength (text : String) : Int :=
  let urls := findUrls text.data
  (text.data.length : Int) - ((urls.map List.length).sum : Int) +
    TWITTER_URL_LENGTH * urls.length

/-- `needle.isPrefixOf`-style check used by the `includes` scan. -/
def litAtHead : List Char → List Char → Bool
  | [], _ => true
  | _ :: _, [] => false
  | n :: ns, c :: cs => n == c && litAtHead ns cs

/-- `String.prototype.includes` on char lists. -/
def strIncludes (hay needle : List Char) : Bool :=
  match hay with
  | [] => needle.isEmpty
  | _ :: cs => litAtHead needle hay || strIncludes cs needle

/-- Lowercase a char list (`String.prototype.toLowerCase`; all inputs the
program compares are ASCII, where `Char.toLower` agrees with JS). -/
def lowerL (l : List Char) : List Char :=
  l.map Char.toLower

/-- `containsKeywords` from text-utils: case-insensitive `includes` of any keyword. -/
def containsKeywords (text : String) (keywords : List String) : Bool :=
  keywords.any (fun k => strIncludes (lowerL text.data) (lowerL k.data))

/-- Case-insensitive prefix test: `pat` (stored lowercase) against the text. -/
def ciAtHead : List Char → List Char → Bool
  | [], _ => true
  | _ :: _, [] => false
  | p :: ps, c :: cs => p == c.toLower && ciAtHead ps cs

/-- `\b` after a match: end of input or a non-word character. -/
def boundaryAfter : List Char → Bool
  | [] => true
  | c :: _ => !isWordChar c

/-- Whole-word match of `w` at the head of `t` (the caller checks the left
boundary): case-insensitive literal then a word boundary. -/
def wordAtHead (w t : List Char) : Bool :=
  ciAtHead w t && boundaryAfter (t.drop w.length)

/-- Scan for `\b(w1|w2|...)\b` with `/i`: at each position whose preceding
character (if any) is a non-word character, try each alternative. -/
def wordScan (ws : List (List Char)) : Option Char → List Char → Bool
  | _, [] => false
  | prev, c :: cs =>
    ((match prev with
      | none => true
      | some p => !isWordChar p) && ws.any (fun w => wordAtHead w (c :: cs)))
    || wordScan ws (some c) cs

/-- `new RegExp("\\b(...)\\b", "i").test text` for a list of plain-word
alternatives (each written lowercase; spaces inside an alternative are literal). -/
def matchesWordList (ws : List String) (s : String) : Bool :=
  wordScan (ws.map String.data) none s.data

/-- `String.prototype.trim`. -/
def jsTrim (l : List Char) : List Char :=
  ((l.dropWhile isJsSpace).reverse.dropWhile isJsSpace).reverse

/-- `containsQuestion` from text-utils: a question mark anywhere, or the
trimmed text starting (case-insensitively, no right boundary) with an
interrogative opener. -/
def containsQuestion (s : String) : Bool :=
  strIncludes s.data ['?'] ||
    (["who", "what", "when", "where", "why", "how", "is", "are", "can",
      "will", "should", "could", "would"].any
      (fun w => ciAtHead w.data (jsTrim s.data)))

/-- The `game.?changer` alternative of the provocative pattern: `game`, an
optional single non-line-terminator character, then `changer`, with word
boundaries around the whole match. -/
def gameChangerAtHead (t : List Char) : Bool :=
  ciAtHead ("game".data) t &&
    (let rest4 := t.drop 4
     (ciAtHead ("changer".data) rest4 && boundaryAfter (rest4.drop 7)) ||
       (match rest4 with
        | [] => false
        | c :: rest5 =>
          !(c == '\n' || c == '\r' || c.val == 0x2028 || c.val == 0x2029) &&
            ciAtHead ("changer".data) rest5 && boundaryAfter (rest5.drop 7)))

/-- Scan for the `game.?changer` alternative with its left word boundary. -/
def gameChangerScan : Option Char → List Char → Bool
  | _, [] => false
  | prev, c :: cs =>
    ((match prev with
      | none => true
      | some p => !isWordChar p) && gameChangerAtHead (c :: cs))
    || gameChangerScan (some c) cs

/-- `isProvocative` from text-utils: any of the six provocative patterns. -/
def isProvocative (s : String) : Bool :=
  matchesWordList ["never", "always", "every", "no one", "everyone"] s ||
  matchesWordList ["wrong", "right", "must", "need to"] s ||
  matchesWordList ["actually", "really", "truth", "fact"] s ||
  matchesWordList ["hot take", "controversial", "unpopular opinion"] s ||
  (gameChangerScan none s.data ||
    matchesWordList ["revolutionary", "breakthrough"] s) ||
  strIncludes s.data ['!', '!']

/-- Scan for `\d+%`: a digit immediately followed by a percent sign. -/
def digitPercentScan : List Char → Bool
  | a :: b :: rest => (a.isDigit && b == '%') || digitPercentScan (b :: rest)
  | _ => false

/-- Scan for `\$[\d,.]+[BMKk]?`: a dollar sign followed by at least one
digit, comma or dot (the optional suffix never affects matching). -/
def dollarScan : List Char → Bool
  | a :: b :: rest =>
    (a == '$' && (b.isDigit || b == ',' || b == '.')) || dollarScan (b :: rest)
  | _ => false

/-- Scan for `\d+[xX]`: a digit immediately followed by `x` or `X`. -/
def multiplierScan : List Char → Bool
  | a :: b :: rest => (a.isDigit && (b == 'x' || b == 'X')) || multiplierScan (b :: rest)
  | _ => false

/-- Scan for `\d+\.\d+`: digit, dot, digit adjacent. -/
def decimalScan : List Char → Bool
  | a :: b :: c :: rest =>
    (a.isDigit && b == '.' && c.isDigit) || decimalScan (b :: c :: rest)
  | _ => false

/-- Scan for `\d+\s*(w1|w2|...)` with `/i`: a digit, optional whitespace,
then one of the alternatives (no right boundary). -/
def numberWordScan (ws : List (List Char)) : List Char → Bool
  | [] => false
  | c :: cs =>
    (c.isDigit && ws.any (fun w => ciAtHead w (cs.dropWhile isJsSpace)))
    || numberWordScan ws cs

/-- `containsStatistics` from text-utils: the six numeric/statistic patterns. -/
def containsStatistics (s : String) : Bool :=
  digitPercentScan s.data ||
  dollarScan s.data ||
  numberWordScan ["million".data, "billion".data, "trillion".data, "thousand".data] s.data ||
  multiplierScan s.data ||
  numberWordScan ["times".data] s.data ||
  decimalScan s.data

/-! ## Data model -/

/-- An article as it flows through the pipeline.  Fields of the JS object that
no claim touches (publish date, scraping metadata, posting-slot annotations)
are elided; `categoryRank` is `none` while the JS field is still `undefined`. -/
structure Article where
  headline : String := ""
  url : String := ""
  source : String := ""
  summary : String := ""
  category : String := ""
  score : Nat := 0
  categoryRank : Option Nat := none
deriving DecidableEq, Repr

/-- A category from `src/constants/categories.js` (query/keyword/hashtag
payloads elided; only the identity is consumed by the functions under claim). -/
structure Category where
  id : String
  name : String
deriving DecidableEq, Repr

/-- `CATEGORIES` from `src/constants/categories.js`. -/
def CATEGORIES : List Category :=
  [⟨"ai-providers", "AI News from Major Providers"⟩,
   ⟨"business-ai", "Business AI and Automation"⟩,
   ⟨"ai-safety", "AI Safety and Regulation"⟩]

/-! ## Scoring (src/agents/filter.js) -/

def MIN_SCORE_THRESHOLD : Nat := 60

def ARTICLES_PER_CATEGORY : Nat := 3

/-- `calculateEngagementScoreHeuristic` from `src/agents/filter.js`. -/
def calculateEngagementScoreHeuristic (article : Article) : Nat :=
  let text := article.headline ++ " " ++ article.summary
  let s1 := if isProvocative text then 5 else 0
  let s2 := if containsQuestion text then 3 else 0
  let s3 := if matchesWordList
      ["should", "must", "need", "wrong", "right", "better", "worse", "best", "worst"]
      text then 2 else 0
  let businessKeywords := ["ROI", "revenue", "growth", "efficiency", "productivity",
    "cost", "profit", "implementation", "adoption", "strategy"]
  let businessMatches :=
    (businessKeywords.filter (fun k => strIncludes (lowerL text.data) (lowerL k.data))).length
  let s4 := min (businessMatches * 2) 10
  let s5 := if matchesWordList
      ["study", "research", "report", "survey", "data", "announce", "launch",
       "release", "unveil"] text then 5 else 0
  min (s1 + s2 + s3 + s4 + s5) 25

/-- The `majorEntities` list inside `calculateViralityScore`. -/
def majorEntities : List String :=
  ["OpenAI", "Google", "Microsoft", "Apple", "Meta", "Amazon",
   "Anthropic", "Elon Musk", "Sam Altman", "Satya Nadella", "Sundar Pichai",
   "Mark Zuckerberg", "GPT", "ChatGPT", "Claude", "Gemini", "Copilot"]

/-- The word alternatives of the breaking-news regex inside
`calculateViralityScore` (`announces?` etc. expanded). -/
def breakingNewsWords : List String :=
  ["just", "breaking", "now", "today", "announce", "announces", "launch",
   "launches", "reveal", "reveals"]

/-- `calculateViralityScore` from `src/agents/filter.js`. -/
def calculateViralityScore (article : Article) : Nat :=
  let text := article.headline ++ " " ++ article.summary
  let s1 := if containsStatistics text then 5 else 0
  let s2 := if containsQuestion article.headline || isProvocative article.headline
    then 5 else 0
  let s3 := if containsKeywords text majorEntities then 5 else 0
  let s4 := if matchesWordList breakingNewsWords text then 5 else 0
  min (s1 + s2 + s3 + s4) 20

/-- `calculateSeoScore` from `src/agents/filter.js`. -/
def calculateSeoScore (article : Article) : Nat :=
  let text := article.headline ++ " " ++ article.summary
  let seoKeywords := ["AI strategy", "automation", "mid-market", "enterprise",
    "digital transformation", "business intelligence", "ROI"]
  let s1 := if containsKeywords text seoKeywords then 5 else 0
  let b2bKeywords := ["B2B", "enterprise", "business", "corporate", "company",
    "organization", "industry", "sector", "market"]
  let s2 := if containsKeywords text b2bKeywords then 5 else 0
  min (s1 + s2) 10

/-- Which engagement strategy `getAIProvider(config)` selected. -/
inductive AIProvider
  | openai
  | anthropic
  | heuristic
deriving DecidableEq, Repr

/-- Outcome of the external text-completion request: the request threw (network
failure or non-ok response), or it responded and the extracted message content
trimmed to `body`. -/
inductive AIOutcome
  | requestFailed (errMsg : String)
  | responded (body : String)
deriving DecidableEq, Repr

/-- `parseInt(s, 10)`: skip leading JS whitespace, optional sign, then leading
decimal digits; `none` models `NaN`. -/
def parseIntJs (s : String) : Option Int :=
  let l := s.data.dropWhile isJsSpace
  let (neg, l') : Bool × List Char :=
    match l with
    | '-' :: rest => (true, rest)
    | '+' :: rest => (false, rest)
    | _ => (false, l)
  let digits := l'.takeWhile Char.isDigit
  if digits.isEmpty then none
  else
    let n := digits.foldl (fun acc c => acc * 10 + (c.toNat - '0'.toNat)) 0
    some (if neg then -(n : Int) else (n : Int))

/-- `calculateEngagementScoreAI` from `src/agents/filter.js`, with the HTTP
round trip abstracted into `outcome`.  A thrown request error becomes
`Except.error`; a response parses `parseInt` of the content: `NaN` yields the
fixed default 12, a number is clamped into `[0, 25]`.  For a provider that is
neither OpenAI nor Anthropic the function falls through to the heuristic. -/
def calculateEngagementScoreAI (provider : AIProvider) (outcome : AIOutcome)
    (article : Article) : Except String Int :=
  match provider with
  | .openai | .anthropic =>
    match outcome with
    | .requestFailed e => .error e
    | .responded body =>
      match parseIntJs (String.mk (jsTrim body.data)) with
      | none => .ok 12
      | some n => .ok (min (max n 0) 25)
  | .heuristic => .ok (calculateEngagementScoreHeuristic article)

/-- `calculateEngagementScore` from `src/agents/filter.js`: heuristic when no
AI provider is configured, otherwise the AI path with the heuristic as the
`catch` fallback. -/
def calculateEngagementScore (provider : AIProvider) (outcome : AIOutcome)
    (article : Article) : Int :=
  if provider = .heuristic then calculateEngagementScoreHeuristic article
  else
    match calculateEngagementScoreAI provider outcome article with
    | .error _ => calculateEngagementScoreHeuristic article
    | .ok v => v

/-- The per-category body of the selection loop in `selectTopArticles`
(`src/agents/filter.js`): quality-gate filter, fall back to the unfiltered
list when fewer than `ARTICLES_PER_CATEGORY` qualify, take the first three
of the (already score-sorted) pool and stamp `categoryRank` 1.. onto them. -/
def selectForCategory (scoredArticles : List Article) (cat : Category) : List Article :=
  let categoryArticles := scoredArticles.filter (fun a => a.category == cat.id)
  let qualifiedArticles := categoryArticles.filter (fun a => MIN_SCORE_THRESHOLD ≤ a.score)
  let articlesToSelect :=
    if ARTICLES_PER_CATEGORY ≤ qualifiedArticles.length
    then qualifiedArticles.take ARTICLES_PER_CATEGORY
    else categoryArticles.take ARTICLES_PER_CATEGORY
  articlesToSelect.enum.map (fun p => { p.2 with categoryRank := some (p.1 + 1) })

/-- `selectTopArticles` from `src/agents/filter.js` (the trailing
`assignPostingSlots` call only annotates posting-time metadata that is not
part of the `Article` model and is not consumed by any claim). -/
def selectTopArticles (scoredArticles : List Article) : List Article :=
  CATEGORIES.flatMap (selectForCategory scoredArticles)

/-! ## Posting schedule (posting-schedule constants module) -/

/-- A fixed time slot of the daily schedule. -/
structure TimeSlot where
  hour : Nat
  utcHour : Nat
  utcHourDST : Nat
  postNumber : Nat
  categoryId : String
  categoryRank : Nat
  includeQuote : Bool
deriving DecidableEq, Repr

/-- `POSTING_SCHEDULE`: the nine fixed daily slots. -/
def POSTING_SCHEDULE : List TimeSlot :=
  [⟨9, 14, 13, 1, "ai-providers", 1, false⟩,
   ⟨10, 15, 14, 2, "business-ai", 1, false⟩,
   ⟨11, 16, 15, 3, "ai-safety", 1, true⟩,
   ⟨12, 17, 16, 4, "ai-providers", 2, false⟩,
   ⟨13, 18, 17, 5, "business-ai", 2, false⟩,
   ⟨14, 19, 18, 6, "ai-safety", 2, true⟩,
   ⟨15, 20, 19, 7, "ai-providers", 3, false⟩,
   ⟨16, 21, 20, 8, "business-ai", 3, false⟩,
   ⟨17, 22, 21, 9, "ai-safety", 3, true⟩]

/-- `getTimeSlotForUTCHour` from the posting-schedule module. -/
def getTimeSlotForUTCHour (utcHour : Int) (isDST : Bool) : Option TimeSlot :=
  POSTING_SCHEDULE.find? (fun slot =>
    if isDST then ((slot.utcHourDST : Int) == utcHour) else ((slot.utcHour : Int) == utcHour))

/-! ## Company quotes (mab-quotes constants module) -/

/-- `getDayOfYear`-style rotation inside `getQuoteForDay`: day of year computed
as `floor((t - new Date(year, 0, 0)) / 86400000)` (local = UTC on the worker). -/
def getQuoteForDayId (t : Int) : Int :=
  let year := getUTCFullYear t
  let start := epochUTC year 1 0 0 0
  let dayOfYear := Int.ediv (t - start) msPerDay
  Int.emod (dayOfYear - 1) 5 + 1

/-- `shouldIncludeQuote` from the mab-quotes module. -/
def shouldIncludeQuote (postNumber : Nat) : Bool :=
  postNumber == 3 || postNumber == 6 || postNumber == 9

/-! ## Scheduler service (src/services/scheduler.js) -/

/-- Two-digit zero padding used by `toISOString` date fields. -/
def pad2 (n : Int) : String :=
  if n < 10 then "0" ++ toString n else toString n

/-- `getTodayString` from date-utils: shift to Eastern time (offset -4 during
DST, else -5) and take the `YYYY-MM-DD` part of the ISO string. -/
def getTodayString (t : Int) : String :=
  let offset : Int := if isEasternDST t then -4 else -5
  let shifted := t + offset * msPerHour
  let c := civilFromDays (Int.ediv shifted msPerDay)
  toString c.1 ++ "-" ++ pad2 c.2.1 ++ "-" ++ pad2 c.2.2

/-- Status enum of a scheduled post; the source stores the strings
`pending`, `ready`, `no-article`, `posted`, `failed`. -/
inductive PostStatus
  | pending
  | ready
  | noArticle
  | posted
  | failed
deriving DecidableEq, Repr

/-- A `ScheduledPost` of the scheduler queue (the `postedAt` timestamp string
recorded by `markPosted` is elided). -/
structure ScheduledPost where
  id : String
  postNumber : Nat
  hour : Nat
  utcHour : Nat
  categoryId : String
  categoryRank : Nat
  includeQuote : Bool
  quoteId : Option Int := none
  article : Option Article := none
  tweetText : Option String := none
  hashtags : List String := []
  status : PostStatus := .pending
  tweetId : Option String := none
  error : Option String := none
deriving DecidableEq, Repr

/-- The mutable state of a `SchedulerService`: the `queue` Map in insertion
order and the `postedToday` Set as the list of added ids. -/
structure SchedulerState where
  queue : List ScheduledPost := []
  postedToday : List String := []
deriving DecidableEq, Repr

/-- `Map.prototype.get` on the queue. -/
def queueGet (q : List ScheduledPost) (id : String) : Option ScheduledPost :=
  q.find? (fun p => p.id == id)

/-- `Map.prototype.set` on the queue for a key already present: replace in place. -/
def queueSet (q : List ScheduledPost) (id : String) (p : ScheduledPost) :
    List ScheduledPost :=
  q.map (fun x => if x.id == id then p else x)

/-- `initializeDailySchedule` from `src/services/scheduler.js`, run at time
`now` on an empty queue: the nine scheduled posts of the civic day. -/
def initializeDailySchedule (now : Int) : List ScheduledPost :=
  let today := getTodayString now
  let quoteId := getQuoteForDayId now
  POSTING_SCHEDULE.map (fun slot =>
    { id := today ++ "-" ++ toString slot.postNumber
      postNumber := slot.postNumber
      hour := slot.hour
      utcHour := if isEasternDST now then slot.utcHourDST else slot.utcHour
      categoryId := slot.categoryId
      categoryRank := slot.categoryRank
      includeQuote := slot.includeQuote
      quoteId := if slot.includeQuote then some quoteId else none
      article := none
      tweetText := none
      hashtags := []
      status := .pending })

/-- `assignArticlesToSchedule` from `src/services/scheduler.js`: group the
ranked articles by category (a Map of per-category lists in input order, i.e.
`filter`), then give each queued post the element of its category's list at
index `categoryRank - 1`, marking it `ready`, or mark it `no-article`. -/
def assignArticlesToSchedule (queue : List ScheduledPost)
    (rankedArticles : List Article) : List ScheduledPost :=
  queue.map (fun post =>
    let categoryArticles := rankedArticles.filter (fun a => a.category == post.categoryId)
    match categoryArticles.get? (post.categoryRank - 1) with
    | some article => { post with article := some article, status := .ready }
    | none => { post with status := .noArticle })

/-- `getCurrentPost` from `src/services/scheduler.js`. -/
def getCurrentPost (s : SchedulerState) (now : Int) : Option ScheduledPost :=
  let isDST := isEasternDST now
  let utcHour := getUTCHours now
  match getTimeSlotForUTCHour utcHour isDST with
  | none => none
  | some timeSlot =>
    let postId := getTodayString now ++ "-" ++ toString timeSlot.postNumber
    match queueGet s.queue postId with
    | none => none
    | some post => if s.postedToday.contains postId then none else some post

/-- `markPosted` from `src/services/scheduler.js`. -/
def markPosted (s : SchedulerState) (postId tweetId : String) : SchedulerState :=
  match queueGet s.queue postId with
  | none => s
  | some post =>
    let p := { post with status := .posted, tweetId := some tweetId }
    { queue := queueSet s.queue postId p, postedToday := s.postedToday ++ [postId] }

/-- `markFailed` from `src/services/scheduler.js`. -/
def markFailed (s : SchedulerState) (postId error : String) : SchedulerState :=
  match queueGet s.queue postId with
  | none => s
  | some post =>
    let p := { post with status := .failed, error := some error }
    { queue := queueSet s.queue postId p, postedToday := s.postedToday }

/-! ## Poster agent (src/agents/poster.js) -/

/-- Outcome of one publish attempt: everything inside the `try` between
content creation and `twitter.postTweet` collapses to either a tweet id (the
dry-run synthetic id included) or a thrown error message. -/
inductive PublishOutcome
  | success (tweetId : String)
  | failure (errMsg : String)
deriving DecidableEq, Repr

/-- The observable result of `PosterAgent.run`: the `result` object fields the
claims inspect, plus whether `email.sendErrorAlert` was invoked. -/
structure PosterRunResult where
  success : Bool
  error : Option String := none
  alertSent : Bool := false
deriving DecidableEq, Repr

/-- `PosterAgent.run` from `src/agents/poster.js` as a state transition:
resolve the current post; no post or a non-`ready` post returns without
touching the queue; a successful publish is recorded through `markPosted`;
a thrown error is caught, recorded on the run result, and an email alert is
sent — the catch block does not call `markFailed`. -/
def posterRun (s : SchedulerState) (now : Int) (outcome : PublishOutcome) :
    SchedulerState × PosterRunResult :=
  match getCurrentPost s now with
  | none => (s, { success := true })
  | some post =>
    if post.status ≠ .ready then
      (s, { success := false, error := some "Post not ready" })
    else
      match outcome with
      | .success tweetId => (markPosted s post.id tweetId, { success := true })
      | .failure errMsg =>
        (s, { success := false, error := some errMsg, alertSent := true })

/-! ## Scraper agent (src/agents/scraper.js) and validator -/

/-- Strip one trailing slash: `url.replace(/\/$/, "")`. -/
def stripTrailingSlash (l : List Char) : List Char :=
  if l ≠ [] && l.getLast? == some '/' then l.dropLast else l

/-- `url.replace(/\?.*$/, "")`: cut from the first `?` after which no line
terminator occurs (without the `s` flag, `.*$` only reaches the string end). -/
def stripQuery : List Char → List Char
  | [] => []
  | c :: cs =>
    if c == '?' && !(cs.any (fun x => x == '\n' || x == '\r' || x.val == 0x2028 || x.val == 0x2029))
    then []
    else c :: stripQuery cs

/-- URL normalization inside `deduplicateArticles` (validator.js). -/
def normalizeUrl (url : String) : String :=
  String.mk (lowerL (stripQuery (stripTrailingSlash url.data)))

/-- The stateful `filter` of `deduplicateArticles`, with the `seen` set explicit. -/
def dedupGo (seen : List String) : List Article → List Article
  | [] => []
  | a :: rest =>
    if a.url == "" then dedupGo seen rest
    else
      let n := normalizeUrl a.url
      if seen.contains n then dedupGo seen rest
      else a :: dedupGo (seen ++ [n]) rest

/-- `deduplicateArticles` from `src/utils/validator.js`. -/
def deduplicateArticles (articles : List Article) : List Article :=
  dedupGo [] articles

def MIN_ARTICLES_PER_CATEGORY : Nat := 5

def TARGET_ARTICLES_PER_CATEGORY : Nat := 15

/-- Outcome of one source stage of the collector: the validated article list
the stage returned, or the error it threw. -/
inductive FetchOutcome
  | ok (articles : List Article)
  | err (msg : String)
deriving DecidableEq, Repr

/-- The fields of `ScraperAgent.scrapeCategory`'s result object that the
claims inspect. -/
structure CollectionResult where
  categoryId : String
  success : Bool := false
  articles : List Article := []
  apiUsed : Option String := none
  error : Option String := none
  perplexityError : Option String := none
  newsApiError : Option String := none
  perplexityArticles : Option (List Article) := none
deriving DecidableEq, Repr

/-- The previous-day fallback tail of `scrapeCategory` (stage 3 plus the
complete-failure exit). -/
def scrapeStep3 (r : CollectionResult) (previousDayArticles : List Article) :
    CollectionResult :=
  if 0 < previousDayArticles.length then
    { r with articles := previousDayArticles, apiUsed := some "previous-day", success := true }
  else
    { r with error := some "All scraping methods failed" }

/-- The NewsAPI fallback stage of `scrapeCategory`: merge surviving primary
articles with the backup results, deduplicate, and accept at the 5-article
floor, labelling `combined` exactly when `perplexityArticles` is non-empty. -/
def scrapeStep2 (r : CollectionResult) (newsApiOutcome : FetchOutcome)
    (previousDayArticles : List Article) : CollectionResult :=
  match newsApiOutcome with
  | .err e => scrapeStep3 { r with newsApiError := some e } previousDayArticles
  | .ok newsApiArticles =>
    let combined := deduplicateArticles ((r.perplexityArticles.getD []) ++ newsApiArticles)
    if MIN_ARTICLES_PER_CATEGORY ≤ combined.length then
      { r with
        articles := combined.take TARGET_ARTICLES_PER_CATEGORY,
        apiUsed := some (if 0 < (r.perplexityArticles.getD []).length then "combined" else "newsapi"),
        success := true }
    else scrapeStep3 r previousDayArticles

/-- `ScraperAgent.scrapeCategory` from `src/agents/scraper.js`, with each
network stage abstracted into its outcome (`scrapeWithPerplexity` and
`scrapeWithNewsApi` results are already validated and enriched;
`getPreviousDayArticles` catches its own errors and returns a list). -/
def scrapeCategory (categoryId : String) (perplexityOutcome newsApiOutcome : FetchOutcome)
    (previousDayArticles : List Article) : CollectionResult :=
  let base : CollectionResult := { categoryId := categoryId }
  match perplexityOutcome with
  | .ok articles =>
    if MIN_ARTICLES_PER_CATEGORY ≤ articles.length then
      { base with articles := articles, apiUsed := some "perplexity", success := true }
    else
      scrapeStep2 { base with perplexityArticles := some articles }
        newsApiOutcome previousDayArticles
  | .err e =>
    scrapeStep2 { base with perplexityError := some e }
      newsApiOutcome previousDayArticles

/-! ## Concrete fixtures used by witnesses and counterexamples -/

/-- 2025-01-15 14:00 UTC: a winter instant whose UTC hour maps to post 1. -/
def sampleNow : Int := epochUTC 2025 1 15 14 0

/-- A selected ai-providers article carrying rank 1. -/
def sampleArticleRank1 : Article :=
  { headline := "Sample headline one", url := "https://one.example.com",
    source := "Reuters", summary := "A sample summary of the first article.",
    category := "ai-providers", score := 88, categoryRank := some 1 }

/-- A selected ai-providers article carrying rank 2. -/
def sampleArticleRank2 : Article :=
  { headline := "Sample headline two", url := "https://two.example.com",
    source := "Axios", summary := "A sample summary of the second article.",
    category := "ai-providers", score := 81, categoryRank := some 2 }

/-- The day's queue after assignment of the two sample articles in rank order. -/
def sampleAssignedQueue : List ScheduledPost :=
  assignArticlesToSchedule (initializeDailySchedule sampleNow)
    [sampleArticleRank1, sampleArticleRank2]

/-- Scheduler state with post 2025-01-15-1 ready and nothing posted yet. -/
def sampleReadyState : SchedulerState :=
  { queue := sampleAssignedQueue, postedToday := [] }

/-- An article that matches all four virality patterns. -/
def viralityWitnessArticle : Article :=
  { headline := "Is OpenAI breaking records? Adoption up 50%",
    summary := "A big update today across the industry." }

/-- A scored, score-sorted single-category input for the selector. -/
def sampleScoredArticles : List Article :=
  [{ headline := "Scored A", url := "https://sa.example.com", category := "ai-providers", score := 90 },
   { headline := "Scored B", url := "https://sb.example.com", category := "ai-providers", score := 70 },
   { headline := "Scored C", url := "https://sc.example.com", category := "ai-providers", score := 65 },
   { headline := "Scored D", url := "https://sd.example.com", category := "ai-providers", score := 50 }]

/-- Five backup articles with distinct URLs. -/
def sampleBackupArticles : List Article :=
  [{ headline := "Backup one", url := "https://b1.example.com", category := "ai-providers" },
   { headline := "Backup two", url := "https://b2.example.com", category := "ai-providers" },
   { headline := "Backup three", url := "https://b3.example.com", category := "ai-providers" },
   { headline := "Backup four", url := "https://b4.example.com", category := "ai-providers" },
   { headline := "Backup five", url := "https://b5.example.com", category := "ai-providers" }]

/-! ## Helper lemmas -/

theorem calculateEngagementScoreHeuristic_le (a : Article) :
    calculateEngagementScoreHeuristic a ≤ 25 := by
  simp only [calculateEngagementScoreHeuristic]
  exact Nat.min_le_right _ _

/-- Claim C5: for every publish timestamp, `calculateRecencyScore` returns only
values in 0, 5, 10, 15, 20; with h the elapsed hours at evaluation time it
returns 20 iff 0 <= h <= 6, 15 iff 6 < h <= 12, 10 iff 12 < h <= 18,
5 iff 18 < h <= 24, and 0 exactly for h > 24 or negative h (future
timestamp); consequently the score is monotonically non-increasing in h over
h >= 0. -/
theorem calculateRecencyScore_bands (publishDate now : Int) :
    (calculateRecencyScore publishDate now = 0 ∨
     calculateRecencyScore publishDate now = 5 ∨
     calculateRecencyScore publishDate now = 10 ∨
     calculateRecencyScore publishDate now = 15 ∨
     calculateRecencyScore publishDate now = 20) ∧
    (calculateRecencyScore publishDate now = 20 ↔
      0 ≤ hoursBetween publishDate now ∧ hoursBetween publishDate now ≤ 6) ∧
    (calculateRecencyScore publishDate now = 15 ↔
      6 < hoursBetween publishDate now ∧ hoursBetween publishDate now ≤ 12) ∧
    (calculateRecencyScore publishDate now = 10 ↔
      12 < hoursBetween publishDate now ∧ hoursBetween publishDate now ≤ 18) ∧
    (calculateRecencyScore publishDate now = 5 ↔
      18 < hoursBetween publishDate now ∧ hoursBetween publishDate now ≤ 24) ∧
    (calculateRecencyScore publishDate now = 0 ↔
      hoursBetween publishDate now < 0 ∨ 24 < hoursBetween publishDate now) ∧
    (∀ publishDate2 now2,
      0 ≤ hoursBetween publishDate now →
      hoursBetween publishDate now ≤ hoursBetween publishDate2 now2 →
      calculateRecencyScore publishDate2 now2 ≤ calculateRecencyScore publishDate now) := by
  have hmono : ∀ publishDate2 now2,
      0 ≤ hoursBetween publishDate now →
      hoursBetween publishDate now ≤ hoursBetween publishDate2 now2 →
      calculateRecencyScore publishDate2 now2 ≤ calculateRecencyScore publishDate now := by
    intro p2 n2 h0 hle
    simp only [calculateRecencyScore]
    split_ifs with a1 a2 a3 a4 a5 b1 b2 b3 b4 b5 <;> first | omega | linarith
  have h6 : (calculateRecencyScore publishDate now = 0 ∨
     calculateRecencyScore publishDate now = 5 ∨
     calculateRecencyScore publishDate now = 10 ∨
     calculateRecencyScore publishDate now = 15 ∨
     calculateRecencyScore publishDate now = 20) ∧
    (calculateRecencyScore publishDate now = 20 ↔
      0 ≤ hoursBetween publishDate now ∧ hoursBetween publishDate now ≤ 6) ∧
    (calculateRecencyScore publishDate now = 15 ↔
      6 < hoursBetween publishDate now ∧ hoursBetween publishDate now ≤ 12) ∧
    (calculateRecencyScore publishDate now = 10 ↔
      12 < hoursBetween publishDate now ∧ hoursBetween publishDate now ≤ 18) ∧
    (calculateRecencyScore publishDate now = 5 ↔
      18 < hoursBetween publishDate now ∧ hoursBetween publishDate now ≤ 24) ∧
    (calculateRecencyScore publishDate now = 0 ↔
      hoursBetween publishDate now < 0 ∨ 24 < hoursBetween publishDate now) := ?_
  · exact ⟨h6.1, h6.2.1, h6.2.2.1, h6.2.2.2.1, h6.2.2.2.2.1, h6.2.2.2.2.2, hmono⟩
  simp only [calculateRecencyScore]
  split_ifs with h1 h2 h3 h4 h5
  · exact ⟨by norm_num,
      iff_of_false (by norm_num) (fun hx => by linarith [hx.1]),
      iff_of_false (by norm_num) (fun hx => by linarith [hx.1]),
      iff_of_false (by norm_num) (fun hx => by linarith [hx.1]),
      iff_of_false (by norm_num) (fun hx => by linarith [hx.1]),
      iff_of_true rfl (Or.inl h1)⟩
  · exact ⟨by norm_num,
      iff_of_true rfl ⟨le_of_not_lt h1, h2⟩,
      iff_of_false (by norm_num) (fun hx => by linarith [hx.1]),
      iff_of_false (by norm_num) (fun hx => by linarith [hx.1]),
      iff_of_false (by norm_num) (fun hx => by linarith [hx.1]),
      iff_of_false (by norm_num)
        (fun hx => by rcases hx with hx | hx <;> linarith)⟩
  · exact ⟨by norm_num,
      iff_of_false (by norm_num) (fun hx => absurd hx.2 h2),
      iff_of_true rfl ⟨not_le.mp h2, h3⟩,
      iff_of_false (by norm_num) (fun hx => by linarith [hx.1]),
      iff_of_false (by norm_num) (fun hx => by linarith [hx.1]),
      iff_of_false (by norm_num)
        (fun hx => by rcases hx with hx | hx <;> linarith)⟩
  · exact ⟨by norm_num,
      iff_of_false (by norm_num) (fun hx => absurd hx.2 (by linarith [not_le.mp h3])),
      iff_of_false (by norm_num) (fun hx => absurd hx.2 h3),
      iff_of_true rfl ⟨not_le.mp h3, h4⟩,
      iff_of_false (by norm_num) (fun hx => by linarith [hx.1]),
      iff_of_false (by norm_num)
        (fun hx => by rcases hx with hx | hx <;> linarith)⟩
  · exact ⟨by norm_num,
      iff_of_false (by norm_num) (fun hx => absurd hx.2 (by linarith [not_le.mp h4])),
      iff_of_false (by norm_num) (fun hx => absurd hx.2 (by linarith [not_le.mp h4])),
      iff_of_false (by norm_num) (fun hx => absurd hx.2 h4),
      iff_of_true rfl ⟨not_le.mp h4, h5⟩,
      iff_of_false (by norm_num)
        (fun hx => by rcases hx with hx | hx <;> linarith)⟩
  · exact ⟨by norm_num,
      iff_of_false (by norm_num) (fun hx => absurd hx.2 (by linarith [not_le.mp h5])),
      iff_of_false (by norm_num) (fun hx => absurd hx.2 (by linarith [not_le.mp h5])),
      iff_of_false (by norm_num) (fun hx => absurd hx.2 (by linarith [not_le.mp h5])),
      iff_of_false (by norm_num) (fun hx => absurd hx.2 h5),
      iff_of_true rfl (Or.inr (not_le.mp h5))⟩

theorem calculateRecencyScore_bands_witness :
    calculateRecencyScore 0 10800000 = 20 :=
  (calculateRecencyScore_bands 0 10800000).2.1.mpr
    ⟨by norm_num [hoursBetween], by norm_num [hoursBetween]⟩

/-- Claim C7 as amended: `calculateEngagementScore` never raises and its result
is always in [0, 25]; when the AI request fails it returns the heuristic
engagement score for the same article; when the AI responds with a
non-numeric value it returns the fixed default 12 (not the heuristic); when
the AI responds with a numeric value the result is that number clamped into
[0, 25] (not the heuristic). -/
theorem engagementScore_bounded_fallback (provider : AIProvider) (outcome : AIOutcome)
    (article : Article) :
    (0 ≤ calculateEngagementScore provider outcome article ∧
      calculateEngagementScore provider outcome article ≤ 25) ∧
    (∀ e, outcome = .requestFailed e →
      calculateEngagementScore provider outcome article =
        calculateEngagementScoreHeuristic article) ∧
    (∀ body, provider ≠ .heuristic → outcome = .responded body →
      parseIntJs (String.mk (jsTrim body.data)) = none →
      calculateEngagementScore provider outcome article = 12) ∧
    (∀ body n, provider ≠ .heuristic → outcome = .responded body →
      parseIntJs (String.mk (jsTrim body.data)) = some n →
      calculateEngagementScore provider outcome article = min (max n 0) 25) := by
  have hheu := calculateEngagementScoreHeuristic_le article
  refine ⟨?_, ?_, ?_, ?_⟩
  · cases provider <;> cases outcome <;>
      simp only [calculateEngagementScore, calculateEngagementScoreAI] <;>
      first
        | (constructor <;> [positivity; exact_mod_cast hheu])
        | (rcases hp : parseIntJs (String.mk (jsTrim _)) with _ | n <;> simp [hp])
  · intro e he
    subst he
    cases provider <;> simp [calculateEngagementScore, calculateEngagementScoreAI]
  · intro body hp he hparse
    subst he
    cases provider <;> simp_all [calculateEngagementScore, calculateEngagementScoreAI]
  · intro body n hp he hparse
    subst he
    cases provider <;> simp_all [calculateEngagementScore, calculateEngagementScoreAI]

theorem engagementScore_bounded_fallback_witness :
    calculateEngagementScore .openai (.requestFailed "network error") {} =
      calculateEngagementScoreHeuristic {} :=
  (engagementScore_bounded_fallback .openai (.requestFailed "network error") {}).2.1
    "network error" rfl

/-- Claim C6: every pattern-based sub-score stays within its documented cap — the
heuristic engagement score is at most 25, the virality score at most 20 and
the SEO score at most 10 — and an article matching every virality pattern
scores exactly 20. -/
theorem subscore_caps (a : Article) :
    calculateEngagementScoreHeuristic a ≤ 25 ∧
    calculateViralityScore a ≤ 20 ∧
    calculateSeoScore a ≤ 10 ∧
    (containsStatistics (a.headline ++ " " ++ a.summary) = true →
      (containsQuestion a.headline = true ∨ isProvocative a.headline = true) →
      containsKeywords (a.headline ++ " " ++ a.summary) majorEntities = true →
      matchesWordList breakingNewsWords (a.headline ++ " " ++ a.summary) = true →
      calculateViralityScore a = 20) := by
  refine ⟨calculateEngagementScoreHeuristic_le a, ?_, ?_, ?_⟩
  · simp only [calculateViralityScore]; exact Nat.min_le_right _ _
  · simp only [calculateSeoScore]; exact Nat.min_le_right _ _
  · intro h1 h2 h3 h4
    have h2' : (containsQuestion a.headline || isProvocative a.headline) = true := by
      rcases h2 with h | h <;> simp [h]
    simp [calculateViralityScore, h1, h2', h3, h4]

/-- Witness for C6 at an article matching all four virality patterns. -/
theorem subscore_caps_witness :
    calculateViralityScore viralityWitnessArticle = 20 :=
  (subscore_caps viralityWitnessArticle).2.2.2 (by decide) (Or.inl (by decide))
    (by decide) (by decide)

/-- Claim C9 (code bug): the two `isEasternDST` implementations disagree, so
the claimed property cannot hold for both.  2025-03-02 and
2025-03-09 are the first and second Sundays of March 2025; at 2025-03-10
12:00 UTC (the day after the second Sunday) the date-utils implementation
reports DST but the posting-schedule implementation does not — it starts DST
only on the third Sunday (2025-03-16), contradicting its own doc comment. -/
theorem schedule_isEasternDST_third_sunday_bug :
    getUTCDay (epochUTC 2025 3 2 0 0) = 0 ∧
    getUTCDay (epochUTC 2025 3 9 0 0) = 0 ∧
    isEasternDST (epochUTC 2025 3 10 12 0) = true ∧
    scheduleIsEasternDST (epochUTC 2025 3 10 12 0) = false ∧
    scheduleIsEasternDST (epochUTC 2025 3 16 12 0) = true := by
  decide

/-- Claim C2 (code bug): with post 2025-01-15-1 in state `ready` and the publish call
throwing, `PosterAgent.run` sends the alert and records the error on the run
result but leaves the scheduler state untouched — the post stays `ready` and
never reaches `failed`, even though `markFailed` (never invoked by the
driver) would have performed exactly that transition. -/
theorem publish_failure_leaves_post_ready :
    (∃ p, getCurrentPost sampleReadyState sampleNow = some p ∧ p.status = .ready) ∧
    posterRun sampleReadyState sampleNow (.failure "Twitter API error") =
      (sampleReadyState,
        { success := false, error := some "Twitter API error", alertSent := true }) ∧
    ((queueGet sampleReadyState.queue "2025-01-15-1").map ScheduledPost.status =
      some .ready) ∧
    ((queueGet (markFailed sampleReadyState "2025-01-15-1" "Twitter API error").queue
        "2025-01-15-1").map ScheduledPost.status = some .failed) := by
  decide

/-- Counterexample for C3: feeding the selected articles in reversed rank
order binds the rank-2 article to the rank-1 slot, although an article whose
`categoryRank` equals the slot's rank is present in the input. -/
theorem assign_by_position_counterexample :
    sampleArticleRank1 ∈ [sampleArticleRank2, sampleArticleRank1] ∧
    sampleArticleRank1.category = "ai-providers" ∧
    sampleArticleRank1.categoryRank = some 1 ∧
    (∃ p ∈ assignArticlesToSchedule (initializeDailySchedule sampleNow)
        [sampleArticleRank2, sampleArticleRank1],
      p.categoryId = "ai-providers" ∧ p.categoryRank = 1 ∧ p.status = .ready ∧
      p.article.map Article.categoryRank = some (some 2)) := by
  decide

/-- Counterexample for C7: a non-numeric AI response yields the fixed default
12, not the heuristic engagement score of the same article (which is 0 here). -/
theorem ai_nonnumeric_returns_fixed_12 :
    calculateEngagementScore .openai (.responded "not a number") {} = 12 ∧
    calculateEngagementScoreHeuristic {} = 0 ∧
    calculateEngagementScore .openai (.responded "not a number") {} ≠
      (calculateEngagementScoreHeuristic {} : Int) := by
  decide

theorem queueGet_queueSet {q : List ScheduledPost} {id : String} {post p : ScheduledPost}
    (hget : queueGet q id = some post) (hid : p.id = id) :
    queueGet (queueSet q id p) id = some p := by
  induction q with
  | nil => simp [queueGet] at hget
  | cons x xs ih =>
    by_cases hbe : (x.id == id) = true
    · have hp : (p.id == id) = true := by simp [hid]
      have hx : x.id = id := by simpa using hbe
      have hcons : queueSet (x :: xs) id p = p :: queueSet xs id p := by
        simp [queueSet, hx]
      show List.find? (fun a => a.id == id) (queueSet (x :: xs) id p) = some p
      rw [hcons]
      show (match p.id == id with
        | true => some p
        | false => List.find? (fun a => a.id == id) (queueSet xs id p)) = some p
      rw [hp]
    · have hbe' : (x.id == id) = false := by simpa using hbe
      have hx : ¬x.id = id := by simpa using hbe
      have hcons : queueSet (x :: xs) id p = x :: queueSet xs id p := by
        simp [queueSet, hx]
      have hget2 : queueGet xs id = some post := by
        have hx : queueGet (x :: xs) id =
            (match x.id == id with
              | true => some x
              | false => List.find? (fun a => a.id == id) xs) := rfl
        rw [hx, hbe'] at hget
        exact hget
      show List.find? (fun a => a.id == id) (queueSet (x :: xs) id p) = some p
      rw [hcons]
      show (match x.id == id with
        | true => some x
        | false => List.find? (fun a => a.id == id) (queueSet xs id p)) = some p
      rw [hbe']
      exact ih hget2

theorem contains_append_self (l : List String) (x : String) :
    (l ++ [x]).contains x = true := by
  induction l with
  | nil => simp
  | cons a as ih =>
    by_cases ha : (a == x) = true
    · simp [List.contains, ha]
    · have ha' : (a == x) = false := by simpa using ha
      simp [List.contains, ha']

/-- Claim C1: for every Scheduled Post that has gone through `markPosted`, a
repeated trigger for the same time slot on the same civic day is a no-op:
`getCurrentPost` returns `none` for that post id (it is in `postedToday`),
the driver run leaves the state untouched so the post is never transitioned
back through `ready` or `failed`, and no second publish call is made; the
post still found under that id is in state `posted`. -/
theorem posted_slot_retrigger_is_noop (s : SchedulerState) (postId tweetId : String)
    (now : Int) (slot : TimeSlot)
    (hslot : getTimeSlotForUTCHour (getUTCHours now) (isEasternDST now) = some slot)
    (hid : getTodayString now ++ "-" ++ toString slot.postNumber = postId) :
    getCurrentPost (markPosted s postId tweetId) now = none ∧
    (∀ outcome, posterRun (markPosted s postId tweetId) now outcome =
      (markPosted s postId tweetId, { success := true })) ∧
    (∀ p, queueGet (markPosted s postId tweetId).queue postId = some p →
      p.status = .posted) := by
  have hnone : getCurrentPost (markPosted s postId tweetId) now = none := by
    rcases hget : queueGet s.queue postId with _ | post
    · simp only [markPosted, hget]
      simp [getCurrentPost, hslot, hid, hget]
    · have hpid : post.id = postId := by
        simpa using List.find?_some hget
      have hget' := queueGet_queueSet
        (p := { post with status := .posted, tweetId := some tweetId }) hget
        (by simpa using hpid)
      simp only [markPosted, hget]
      simp [getCurrentPost, hslot, hid, hget', contains_append_self]
  refine ⟨hnone, fun outcome => by simp [posterRun, hnone], ?_⟩
  intro p hp
  rcases hget : queueGet s.queue postId with _ | post
  · simp only [markPosted, hget] at hp
    simp [hget] at hp
  · have hpid : post.id = postId := by
      simpa using List.find?_some hget
    have hget' := queueGet_queueSet
      (p := { post with status := .posted, tweetId := some tweetId }) hget
      (by simpa using hpid)
    simp only [markPosted, hget] at hp
    rw [hget'] at hp
    cases hp
    rfl

/-- Witness for C1. -/
theorem posted_slot_retrigger_is_noop_witness :
    getCurrentPost (markPosted sampleReadyState "2025-01-15-1" "tweet-1") sampleNow = none :=
  (posted_slot_retrigger_is_noop sampleReadyState "2025-01-15-1" "tweet-1" sampleNow
    ⟨9, 14, 13, 1, "ai-providers", 1, false⟩ (by decide) (by decide)).1

theorem filter_rank_get {ranked : List Article} {c : String} {r : Nat}
    (hpos : ∀ i a, (ranked.filter (fun x => x.category == c)).get? i = some a →
      a.categoryRank = some (i + 1))
    (hr : 1 ≤ r) :
    ((∃ a ∈ ranked, a.category = c ∧ a.categoryRank = some r) ↔
      ((ranked.filter (fun x => x.category == c)).get? (r - 1)).isSome) ∧
    (∀ a, (ranked.filter (fun x => x.category == c)).get? (r - 1) = some a →
      a ∈ ranked ∧ a.category = c ∧ a.categoryRank = some r) := by
  have hsub : ∀ a, (ranked.filter (fun x => x.category == c)).get? (r - 1) = some a →
      a ∈ ranked ∧ a.category = c ∧ a.categoryRank = some r := by
    intro a hget
    have hmem := List.get?_mem hget
    have hmem' := List.mem_filter.mp hmem
    have hrank := hpos (r - 1) a hget
    refine ⟨hmem'.1, by simpa using hmem'.2, ?_⟩
    rw [hrank]
    congr 1
    omega
  refine ⟨⟨?_, ?_⟩, hsub⟩
  · rintro ⟨a, hmem, hcat, hrank⟩
    have hmemf : a ∈ ranked.filter (fun x => x.category == c) :=
      List.mem_filter.mpr ⟨hmem, by simp [hcat]⟩
    obtain ⟨i, hi⟩ := List.mem_iff_get?.mp hmemf
    have hpi := hpos i a hi
    have hieq : i = r - 1 := by
      rw [hpi] at hrank
      injection hrank with h
      omega
    rw [hieq] at hi
    rw [hi]
    rfl
  · intro hsome
    obtain ⟨a, ha⟩ := Option.isSome_iff_exists.mp hsome
    obtain ⟨h1, h2, h3⟩ := hsub a ha
    exact ⟨a, h1, h2, h3⟩

/-- Claim C3 as amended: `assignArticlesToSchedule` binds articles to slots
positionally — each slot of rank k receives the k-th article of its category
in input-list order.  Whenever the input lists each category's articles in
`categoryRank` order 1, 2, ... (the order `selectTopArticles` produces, here
the hypothesis `hpos`), every one of the nine Scheduled Posts is in state
`ready` with an article whose category and `categoryRank` equal the slot's
`categoryId` and `categoryRank` bound to it when such an article exists in
the input, and in state `no-article` with no bound article otherwise. -/
theorem assign_binds_positionally (rankedArticles : List Article) (now : Int)
    (hpos : ∀ c i a, (rankedArticles.filter (fun x => x.category == c)).get? i = some a →
      a.categoryRank = some (i + 1)) :
    ∀ post ∈ assignArticlesToSchedule (initializeDailySchedule now) rankedArticles,
      ((∃ a ∈ rankedArticles, a.category = post.categoryId ∧
          a.categoryRank = some post.categoryRank) →
        post.status = .ready ∧ ∃ a, post.article = some a ∧ a ∈ rankedArticles ∧
          a.category = post.categoryId ∧ a.categoryRank = some post.categoryRank) ∧
      ((¬ ∃ a ∈ rankedArticles, a.category = post.categoryId ∧
          a.categoryRank = some post.categoryRank) →
        post.status = .noArticle ∧ post.article = none) := by
  intro post hmem
  obtain ⟨p0, hp0, hpost⟩ := List.mem_map.mp hmem
  obtain ⟨slot, hslot, rfl⟩ := List.mem_map.mp hp0
  have hr : 1 ≤ slot.categoryRank := by
    have hall : ∀ sl ∈ POSTING_SCHEDULE, 1 ≤ sl.categoryRank := by decide
    exact hall slot hslot
  have hkey := filter_rank_get (c := slot.categoryId) (r := slot.categoryRank)
    (hpos slot.categoryId) hr
  dsimp only at hpost
  rcases hget : (rankedArticles.filter
      (fun x => x.category == slot.categoryId)).get? (slot.categoryRank - 1)
    with _ | a
  · rw [hget] at hpost
    subst hpost
    constructor
    · intro hex
      exfalso
      have hx := hkey.1.mp (by simpa using hex)
      rw [hget] at hx
      simp at hx
    · intro _
      constructor <;> rfl
  · have hprops := hkey.2 a hget
    rw [hget] at hpost
    subst hpost
    constructor
    · intro _
      exact ⟨rfl, a, rfl, hprops⟩
    · intro hne
      exfalso
      refine hne ?_
      have hx := hkey.1.mpr (by rw [hget]; rfl)
      simpa using hx

/-- Witness for C3 amended. -/
theorem assign_binds_positionally_witness :
    ∃ p ∈ sampleAssignedQueue, p.status = .ready ∧ ∃ a, p.article = some a ∧
      a ∈ [sampleArticleRank1, sampleArticleRank2] ∧
      a.category = p.categoryId ∧ a.categoryRank = some p.categoryRank := by
  have hpos : ∀ c i a, (([sampleArticleRank1, sampleArticleRank2]).filter
      (fun x => x.category == c)).get? i = some a → a.categoryRank = some (i + 1) := by
    intro c i a h
    by_cases hc : (("ai-providers" : String) == c) = true
    · have hc1 : (sampleArticleRank1.category == c) = true := hc
      have hc2 : (sampleArticleRank2.category == c) = true := hc
      have hfil : ([sampleArticleRank1, sampleArticleRank2]).filter
          (fun x => x.category == c) = [sampleArticleRank1, sampleArticleRank2] := by
        simp [List.filter, hc1, hc2]
      rw [hfil] at h
      rcases i with _ | _ | i
      · have ha : sampleArticleRank1 = a := by simpa using h
        rw [← ha]; rfl
      · have ha : sampleArticleRank2 = a := by simpa using h
        rw [← ha]; rfl
      · simp at h
    · have hc1 : (sampleArticleRank1.category == c) = false := by simpa using hc
      have hc2 : (sampleArticleRank2.category == c) = false := by simpa using hc
      have hfil : ([sampleArticleRank1, sampleArticleRank2]).filter
          (fun x => x.category == c) = [] := by
        simp [List.filter, hc1, hc2]
      rw [hfil] at h
      simp at h
  have h := assign_binds_positionally [sampleArticleRank1, sampleArticleRank2] sampleNow hpos
  refine ⟨{ id := "2025-01-15-1", postNumber := 1, hour := 9, utcHour := 14,
            categoryId := "ai-providers", categoryRank := 1, includeQuote := false,
            quoteId := none, article := some sampleArticleRank1, tweetText := none,
            hashtags := [], status := .ready, tweetId := none, error := none },
    by decide, ?_⟩
  exact (h _ (by decide)).1 ⟨sampleArticleRank1, by decide, by decide, by decide⟩

theorem enumFrom_get?' {α : Type} : ∀ (s : Nat) (l : List α) (i : Nat),
    (List.enumFrom s l).get? i = (l.get? i).map (fun a => (s + i, a))
  | _, [], _ => by simp
  | s, a :: as, 0 => by simp
  | s, a :: as, i + 1 => by
    simp only [List.enumFrom, List.get?]
    rw [enumFrom_get?' (s + 1) as i]
    simp [Nat.add_assoc, Nat.add_comm 1 i]

theorem rank_stamp_get? (l : List Article) (i : Nat) (a : Article)
    (h : ((l.enum.map (fun p => { p.2 with categoryRank := some (p.1 + 1) })).get? i)
      = some a) : a.categoryRank = some (i + 1) := by
  rw [List.get?_map, List.enum, enumFrom_get?'] at h
  rcases hl : l.get? i with _ | b
  · rw [hl] at h; simp at h
  · rw [hl] at h
    simp only [Option.map_some] at h
    cases h
    simp

/-- Claim C4: for every category and every score-sorted list of scored
articles, `selectForCategory` (the per-category body of `selectTopArticles`,
which concatenates it over `CATEGORIES`) returns the first three of the
quality-gate pool — the articles scoring at least 60 when at least three
qualify, the unfiltered category list otherwise — which by sortedness are a
top-3: every selected article scores at least every unselected article of
the pool; the selection is a sublist of the input (ties keep original input
order), scores are non-increasing along it, and it carries `categoryRank`
1..3 in order.  When at least three articles qualify, exactly three are
returned and all of them meet the 60-point gate; otherwise the unfiltered
prefix of at most three is returned. -/
theorem selectTopArticles_quality_gate (scoredArticles : List Article)
    (hsorted : scoredArticles.Pairwise (fun a b => b.score ≤ a.score)) (cat : Category) :
    selectTopArticles scoredArticles = CATEGORIES.flatMap (selectForCategory scoredArticles) ∧
    selectForCategory scoredArticles cat =
      (((if ARTICLES_PER_CATEGORY ≤
            ((scoredArticles.filter (fun a => a.category == cat.id)).filter
              (fun a => MIN_SCORE_THRESHOLD ≤ a.score)).length
         then (scoredArticles.filter (fun a => a.category == cat.id)).filter
              (fun a => MIN_SCORE_THRESHOLD ≤ a.score)
         else scoredArticles.filter (fun a => a.category == cat.id)).take
          ARTICLES_PER_CATEGORY).enum.map
        (fun p => { p.2 with categoryRank := some (p.1 + 1) })) ∧
    (∀ i a, (selectForCategory scoredArticles cat).get? i = some a →
      a.categoryRank = some (i + 1)) ∧
    ((if ARTICLES_PER_CATEGORY ≤
          ((scoredArticles.filter (fun a => a.category == cat.id)).filter
            (fun a => MIN_SCORE_THRESHOLD ≤ a.score)).length
       then (scoredArticles.filter (fun a => a.category == cat.id)).filter
            (fun a => MIN_SCORE_THRESHOLD ≤ a.score)
       else scoredArticles.filter (fun a => a.category == cat.id)).take
        ARTICLES_PER_CATEGORY).Sublist scoredArticles ∧
    ((if ARTICLES_PER_CATEGORY ≤
          ((scoredArticles.filter (fun a => a.category == cat.id)).filter
            (fun a => MIN_SCORE_THRESHOLD ≤ a.score)).length
       then (scoredArticles.filter (fun a => a.category == cat.id)).filter
            (fun a => MIN_SCORE_THRESHOLD ≤ a.score)
       else scoredArticles.filter (fun a => a.category == cat.id)).take
        ARTICLES_PER_CATEGORY).Pairwise (fun a b => b.score ≤ a.score) ∧
    (∀ a ∈ (if ARTICLES_PER_CATEGORY ≤
          ((scoredArticles.filter (fun a => a.category == cat.id)).filter
            (fun a => MIN_SCORE_THRESHOLD ≤ a.score)).length
       then (scoredArticles.filter (fun a => a.category == cat.id)).filter
            (fun a => MIN_SCORE_THRESHOLD ≤ a.score)
       else scoredArticles.filter (fun a => a.category == cat.id)).take
        ARTICLES_PER_CATEGORY,
     ∀ b ∈ (if ARTICLES_PER_CATEGORY ≤
          ((scoredArticles.filter (fun a => a.category == cat.id)).filter
            (fun a => MIN_SCORE_THRESHOLD ≤ a.score)).length
       then (scoredArticles.filter (fun a => a.category == cat.id)).filter
            (fun a => MIN_SCORE_THRESHOLD ≤ a.score)
       else scoredArticles.filter (fun a => a.category == cat.id)).drop
        ARTICLES_PER_CATEGORY,
      b.score ≤ a.score) ∧
    (ARTICLES_PER_CATEGORY ≤
        ((scoredArticles.filter (fun a => a.category == cat.id)).filter
          (fun a => MIN_SCORE_THRESHOLD ≤ a.score)).length →
      (selectForCategory scoredArticles cat).length = ARTICLES_PER_CATEGORY ∧
      ∀ a ∈ selectForCategory scoredArticles cat, MIN_SCORE_THRESHOLD ≤ a.score) ∧
    (((scoredArticles.filter (fun a => a.category == cat.id)).filter
          (fun a => MIN_SCORE_THRESHOLD ≤ a.score)).length < ARTICLES_PER_CATEGORY →
      selectForCategory scoredArticles cat =
        ((scoredArticles.filter (fun a => a.category == cat.id)).take
          ARTICLES_PER_CATEGORY).enum.map
          (fun p => { p.2 with categoryRank := some (p.1 + 1) })) := by
  have hdef : selectForCategory scoredArticles cat =
      (((if ARTICLES_PER_CATEGORY ≤
            ((scoredArticles.filter (fun a => a.category == cat.id)).filter
              (fun a => MIN_SCORE_THRESHOLD ≤ a.score)).length
         then (scoredArticles.filter (fun a => a.category == cat.id)).filter
              (fun a => MIN_SCORE_THRESHOLD ≤ a.score)
         else scoredArticles.filter (fun a => a.category == cat.id)).take
          ARTICLES_PER_CATEGORY).enum.map
        (fun p => { p.2 with categoryRank := some (p.1 + 1) })) := by
    simp only [selectForCategory]
    rw [← apply_ite (List.take ARTICLES_PER_CATEGORY)]
  have hsubpool : (if ARTICLES_PER_CATEGORY ≤
        ((scoredArticles.filter (fun a => a.category == cat.id)).filter
          (fun a => MIN_SCORE_THRESHOLD ≤ a.score)).length
     then (scoredArticles.filter (fun a => a.category == cat.id)).filter
          (fun a => MIN_SCORE_THRESHOLD ≤ a.score)
     else scoredArticles.filter (fun a => a.category == cat.id)).Sublist
      scoredArticles := by
    split_ifs
    · exact (List.filter_sublist _).trans (List.filter_sublist _)
    · exact List.filter_sublist _
  have hsub : ((if ARTICLES_PER_CATEGORY ≤
        ((scoredArticles.filter (fun a => a.category == cat.id)).filter
          (fun a => MIN_SCORE_THRESHOLD ≤ a.score)).length
     then (scoredArticles.filter (fun a => a.category == cat.id)).filter
          (fun a => MIN_SCORE_THRESHOLD ≤ a.score)
     else scoredArticles.filter (fun a => a.category == cat.id)).take
      ARTICLES_PER_CATEGORY).Sublist scoredArticles :=
    (List.take_sublist _ _).trans hsubpool
  have hpool_pw : (if ARTICLES_PER_CATEGORY ≤
        ((scoredArticles.filter (fun a => a.category == cat.id)).filter
          (fun a => MIN_SCORE_THRESHOLD ≤ a.score)).length
     then (scoredArticles.filter (fun a => a.category == cat.id)).filter
          (fun a => MIN_SCORE_THRESHOLD ≤ a.score)
     else scoredArticles.filter (fun a => a.category == cat.id)).Pairwise
      (fun a b => b.score ≤ a.score) := hsorted.sublist hsubpool
  have htake_pw := hsorted.sublist hsub
  refine ⟨rfl, hdef, ?_, hsub, htake_pw, ?_, ?_, ?_⟩
  · intro i a h
    rw [hdef] at h
    exact rank_stamp_get? _ i a h
  · intro a ha b hb
    have hpw := hpool_pw
    rw [← List.take_append_drop ARTICLES_PER_CATEGORY
      (if ARTICLES_PER_CATEGORY ≤ _ then _ else _)] at hpw
    exact (List.pairwise_append.mp hpw).2.2 a ha b hb
  · intro hge
    constructor
    · rw [hdef, if_pos hge]
      simp only [List.length_map, List.enum_length, List.length_take]
      omega
    · intro a ha
      rw [hdef, if_pos hge] at ha
      obtain ⟨⟨i, b⟩, hmem, rfl⟩ := List.mem_map.mp ha
      have hb : b ∈ ((scoredArticles.filter (fun x => x.category == cat.id)).filter
          (fun x => MIN_SCORE_THRESHOLD ≤ x.score)).take ARTICLES_PER_CATEGORY := by
        have := List.enum_map_snd (((scoredArticles.filter
          (fun x => x.category == cat.id)).filter
          (fun x => MIN_SCORE_THRESHOLD ≤ x.score)).take ARTICLES_PER_CATEGORY)
        have hmem2 : b ∈ (((scoredArticles.filter (fun x => x.category == cat.id)).filter
            (fun x => MIN_SCORE_THRESHOLD ≤ x.score)).take ARTICLES_PER_CATEGORY).enum.map
            Prod.snd := List.mem_map_of_mem Prod.snd hmem
        rwa [this] at hmem2
      have hb2 := List.mem_of_mem_take hb
      have := (List.mem_filter.mp hb2).2
      simpa using this
  · intro hlt
    rw [hdef, if_neg (by omega)]

/-- Witness for C4. -/
theorem selectTopArticles_quality_gate_witness :
    selectForCategory sampleScoredArticles
      ⟨"ai-providers", "AI News from Major Providers"⟩ =
      [{ headline := "Scored A", url := "https://sa.example.com",
         category := "ai-providers", score := 90, categoryRank := some 1 },
       { headline := "Scored B", url := "https://sb.example.com",
         category := "ai-providers", score := 70, categoryRank := some 2 },
       { headline := "Scored C", url := "https://sc.example.com",
         category := "ai-providers", score := 65, categoryRank := some 3 }] :=
  ((selectTopArticles_quality_gate sampleScoredArticles (by decide)
    ⟨"ai-providers", "AI News from Major Providers"⟩).2.1).trans (by decide)

theorem dedupGo_length_le : ∀ (seen : List String) (l : List Article),
    (dedupGo seen l).length ≤ l.length
  | _, [] => Nat.le_refl _
  | seen, a :: rest => by
    simp only [dedupGo]
    split_ifs
    · exact (dedupGo_length_le seen rest).trans (Nat.le_succ _)
    · exact (dedupGo_length_le seen rest).trans (Nat.le_succ _)
    · simpa using Nat.succ_le_succ (dedupGo_length_le _ rest)

/-- Claim C10: when the primary stage yields fewer than 5 valid articles
(hypothesis `hunder`) and the merged, URL-deduplicated union of surviving
primary articles and backup articles reaches at least 5, the collection
result's source label is `combined` exactly when at least one primary-sourced
article survived into the merge and `newsapi` (backup-only) otherwise; and
the `previous-day` label is recorded only when primary and backup together
stayed below the 5-article floor. -/
theorem collection_source_labelling (categoryId : String)
    (perplexityOutcome newsApiOutcome : FetchOutcome)
    (previousDayArticles : List Article)
    (hunder : ∀ arts, perplexityOutcome = .ok arts →
      arts.length < MIN_ARTICLES_PER_CATEGORY) :
    (∀ newsApiArticles, newsApiOutcome = .ok newsApiArticles →
      MIN_ARTICLES_PER_CATEGORY ≤ (deduplicateArticles
        ((match perplexityOutcome with | .ok arts => arts | .err _ => []) ++
          newsApiArticles)).length →
      (scrapeCategory categoryId perplexityOutcome newsApiOutcome
        previousDayArticles).apiUsed =
        some (if (match perplexityOutcome with
                  | .ok arts => arts | .err _ => []).isEmpty
              then "newsapi" else "combined")) ∧
    ((scrapeCategory categoryId perplexityOutcome newsApiOutcome
        previousDayArticles).apiUsed = some "previous-day" →
      (deduplicateArticles
        ((match perplexityOutcome with | .ok arts => arts | .err _ => []) ++
          (match newsApiOutcome with | .ok narts => narts | .err _ => []))).length <
        MIN_ARTICLES_PER_CATEGORY) := by
  rcases perplexityOutcome with arts | e
  · have hlt : arts.length < MIN_ARTICLES_PER_CATEGORY := hunder arts rfl
    rcases newsApiOutcome with narts | ne
    · constructor
      · intro narts' hn hcount
        cases hn
        simp only [scrapeCategory, if_neg (Nat.not_le.mpr hlt), scrapeStep2,
          Option.getD_some]
        rw [if_pos (by simpa using hcount)]
        rcases arts with _ | ⟨a, arts⟩ <;> simp
      · intro hprev
        simp only [scrapeCategory, if_neg (Nat.not_le.mpr hlt), scrapeStep2,
          Option.getD_some] at hprev
        by_cases hc : MIN_ARTICLES_PER_CATEGORY ≤
            (deduplicateArticles (arts ++ narts)).length
        · rw [if_pos hc] at hprev
          simp only [Option.some.injEq] at hprev
          split_ifs at hprev <;> simp_all
        · simpa using Nat.not_le.mp hc
    · constructor
      · intro narts' hn
        cases hn
      · intro _
        calc (deduplicateArticles (arts ++ [])).length
            ≤ (arts ++ []).length := dedupGo_length_le [] _
          _ < MIN_ARTICLES_PER_CATEGORY := by simpa using hlt
  · rcases newsApiOutcome with narts | ne
    · constructor
      · intro narts' hn hcount
        cases hn
        simp only [scrapeCategory, scrapeStep2, Option.getD_none]
        rw [if_pos (by simpa using hcount)]
        simp
      · intro hprev
        simp only [scrapeCategory, scrapeStep2, Option.getD_none] at hprev
        by_cases hc : MIN_ARTICLES_PER_CATEGORY ≤
            (deduplicateArticles ([] ++ narts)).length
        · rw [if_pos (by simpa using hc)] at hprev
          simp only [Option.some.injEq] at hprev
          split_ifs at hprev <;> simp_all
        · simpa using Nat.not_le.mp hc
    · constructor
      · intro narts' hn
        cases hn
      · intro _
        simp [deduplicateArticles, dedupGo, MIN_ARTICLES_PER_CATEGORY]

/-- Witness for C10. -/
theorem collection_source_labelling_witness :
    (scrapeCategory "ai-providers" (.ok [sampleArticleRank1])
      (.ok sampleBackupArticles) []).apiUsed = some "combined" := by
  have h := (collection_source_labelling "ai-providers" (.ok [sampleArticleRank1])
    (.ok sampleBackupArticles) []
    (by intro arts ha; cases ha; decide)).1 sampleBackupArticles rfl (by decide)
  simpa using h

theorem dropLit_length : ∀ (pre l r : List Char), dropLit pre l = some r →
    r.length + pre.length = l.length
  | [], l, r => by intro h; cases h; simp [dropLit]
  | p :: ps, [], r => by intro h; cases h
  | p :: ps, c :: cs, r => by
    intro h
    by_cases hc : c = p
    · rw [dropLit, if_pos hc] at h
      have := dropLit_length ps cs r h
      simp only [List.length_cons]
      omega
    · rw [dropLit, if_neg hc] at h
      cases h

theorem dropLit_self : ∀ (pre l : List Char), dropLit pre (pre ++ l) = some l
  | [], l => rfl
  | p :: ps, l => by
    rw [List.cons_append, dropLit, if_pos rfl]
    exact dropLit_self ps l

theorem urlMatchAt_rest_le {c : Char} {cs url rest : List Char}
    (h : urlMatchAt (c :: cs) = some (url, rest)) : rest.length ≤ cs.length := by
  unfold urlMatchAt at h
  rcases h8 : dropLit ("https://".data) (c :: cs) with _ | r8
  · rw [h8] at h
    rcases h7 : dropLit ("http://".data) (c :: cs) with _ | r7
    · rw [h7] at h; cases h
    · rw [h7] at h
      rcases r7 with _ | ⟨d, r7'⟩
      · cases h
      · by_cases hs : isJsSpace d = true
        · simp [hs] at h
        · simp only [hs, Bool.false_eq_true, if_false, Option.some.injEq] at h
          have hlen := dropLit_length _ _ _ h7
          cases h
          have hdw : ((d :: r7').dropWhile (fun x => !isJsSpace x)).length ≤ (d :: r7').length :=
            (List.dropWhile_sublist _).length_le
          simp only [List.length_cons] at hlen hdw ⊢
          have hp : ("http://".data).length = 7 := rfl
          omega
  · rw [h8] at h
    rcases r8 with _ | ⟨d, r8'⟩
    · cases h
    · by_cases hs : isJsSpace d = true
      · simp [hs] at h
      · simp only [hs, Bool.false_eq_true, if_false, Option.some.injEq] at h
        have hlen := dropLit_length _ _ _ h8
        cases h
        have hdw : ((d :: r8').dropWhile (fun x => !isJsSpace x)).length ≤ (d :: r8').length :=
          (List.dropWhile_sublist _).length_le
        simp only [List.length_cons] at hlen hdw ⊢
        have hp : ("https://".data).length = 8 := rfl
        omega

theorem findUrlsGo_eq : ∀ (f : Nat), ∀ (l : List Char), l.length ≤ f →
    findUrlsGo f l = findUrlsGo l.length l := by
  intro f
  induction f using Nat.strong_induction_on with
  | _ f ih =>
    intro l hl
    rcases l with _ | ⟨c, cs⟩
    · cases f <;> rfl
    · rcases f with _ | f
      · simp at hl
      · rcases hm : urlMatchAt (c :: cs) with _ | ⟨url, rest⟩
        · show findUrlsGo (f + 1) (c :: cs) = findUrlsGo (cs.length + 1) (c :: cs)
          simp only [findUrlsGo, hm]
          have h1 : cs.length ≤ f := by simpa using hl
          rw [ih f (by omega) cs h1, ih cs.length (by omega) cs (Nat.le_refl _)]
        · show findUrlsGo (f + 1) (c :: cs) = findUrlsGo (cs.length + 1) (c :: cs)
          simp only [findUrlsGo, hm]
          have hrest := urlMatchAt_rest_le hm
          have h1 : cs.length ≤ f := by simpa using hl
          congr 1
          rw [ih f (by omega) rest (by omega),
            ih cs.length (by omega) rest hrest]

theorem findUrls_cons_none {c : Char} {cs : List Char}
    (h : urlMatchAt (c :: cs) = none) : findUrls (c :: cs) = findUrls cs := by
  show findUrlsGo (c :: cs).length (c :: cs) = findUrlsGo cs.length cs
  simp only [List.length_cons, findUrlsGo, h]

theorem findUrls_cons_some {c : Char} {cs url rest : List Char}
    (h : urlMatchAt (c :: cs) = some (url, rest)) :
    findUrls (c :: cs) = url :: findUrls rest := by
  show findUrlsGo (c :: cs).length (c :: cs) = url :: findUrlsGo rest.length rest
  simp only [List.length_cons, findUrlsGo, h]
  congr 1
  exact findUrlsGo_eq cs.length rest (urlMatchAt_rest_le h)

/-- A character list none of whose positions can begin a URL match: every
occurrence of `h` is directly followed, still inside the list, by a
character other than `t`. -/
def noUrlStart : List Char → Bool
  | [] => true
  | [c] => decide (c ≠ 'h')
  | c :: d :: rest => (decide (c ≠ 'h') || decide (d ≠ 't')) && noUrlStart (d :: rest)

theorem urlMatchAt_ne {c : Char} (cs : List Char) (hc : ¬c = 'h') :
    urlMatchAt (c :: cs) = none := by
  have h1 : dropLit ("https://".data) (c :: cs) =
      (if c = 'h' then dropLit ("ttps://".data) cs else none) := rfl
  have h2 : dropLit ("http://".data) (c :: cs) =
      (if c = 'h' then dropLit ("ttp://".data) cs else none) := rfl
  unfold urlMatchAt
  rw [h1, h2, if_neg hc, if_neg hc]

theorem urlMatchAt_h_ne_t {c d : Char} (cs : List Char) (hd : ¬d = 't') :
    urlMatchAt (c :: d :: cs) = none := by
  by_cases hc : c = 'h'
  · subst hc
    have h1 : dropLit ("https://".data) ('h' :: d :: cs) =
        (if d = 't' then dropLit ("tps://".data) cs else none) := rfl
    have h2 : dropLit ("http://".data) ('h' :: d :: cs) =
        (if d = 't' then dropLit ("tp://".data) cs else none) := rfl
    unfold urlMatchAt
    rw [h1, h2, if_neg hd, if_neg hd]
  · exact urlMatchAt_ne _ hc

theorem findUrls_append_of_noUrlStart :
    ∀ (pre l : List Char), noUrlStart pre = true →
      findUrls (pre ++ l) = findUrls l
  | [], _, _ => rfl
  | [c], l, h => by
    have hc : ¬c = 'h' := by simpa [noUrlStart] using h
    exact findUrls_cons_none (urlMatchAt_ne l hc)
  | c :: d :: pre, l, h => by
    rw [show noUrlStart (c :: d :: pre) =
      ((decide (c ≠ 'h') || decide (d ≠ 't')) && noUrlStart (d :: pre)) from rfl,
      Bool.and_eq_true, Bool.or_eq_true] at h
    obtain ⟨h1, h2⟩ := h
    have step : urlMatchAt (c :: d :: (pre ++ l)) = none := by
      rcases h1 with hcne | hdne
      · exact urlMatchAt_ne _ (of_decide_eq_true hcne)
      · exact urlMatchAt_h_ne_t _ (of_decide_eq_true hdne)
    have hstep : findUrls (c :: d :: (pre ++ l)) = findUrls (d :: (pre ++ l)) :=
      findUrls_cons_none step
    exact hstep.trans (findUrls_append_of_noUrlStart (d :: pre) l h2)

theorem takeWhile_dropWhile_append {p : Char → Bool} :
    ∀ (u l : List Char), (∀ x ∈ u, p x = true) →
      (l = [] ∨ ∃ d l', l = d :: l' ∧ p d = false) →
      (u ++ l).takeWhile p = u ∧ (u ++ l).dropWhile p = l
  | [], l, _, hl => by
    rcases hl with rfl | ⟨d, l', rfl, hd⟩
    · exact ⟨rfl, rfl⟩
    · constructor
      · simp [List.takeWhile_cons, hd]
      · simp [List.dropWhile_cons, hd]
  | c :: u, l, hu, hl => by
    have hc : p c = true := hu c (by simp)
    have hrec := takeWhile_dropWhile_append u l (fun x hx => hu x (by simp [hx])) hl
    constructor
    · simp [List.takeWhile_cons, hc, hrec.1]
    · simp [List.dropWhile_cons, hc, hrec.2]

theorem urlMatchAt_https (c : Char) (u' l : List Char)
    (hc : isJsSpace c = false) (hall : ∀ x ∈ u', isJsSpace x = false)
    (hl : l = [] ∨ ∃ d l', l = d :: l' ∧ isJsSpace d = true) :
    urlMatchAt ("https://".data ++ ((c :: u') ++ l)) =
      some ("https://".data ++ (c :: u'), l) := by
  have hdl : dropLit ("https://".data) ("https://".data ++ ((c :: u') ++ l)) =
      some ((c :: u') ++ l) := dropLit_self _ _
  have hTD := takeWhile_dropWhile_append (p := fun x => !isJsSpace x) (c :: u') l
    (by
      intro x hx
      rcases List.mem_cons.mp hx with rfl | hx'
      · simp [hc]
      · simp [hall x hx'])
    (by
      rcases hl with rfl | ⟨d, l', rfl, hd⟩
      · exact Or.inl rfl
      · exact Or.inr ⟨d, l', rfl, by simp [hd]⟩)
  unfold urlMatchAt
  rw [hdl]
  show (if isJsSpace c = true then none
      else some ("https://".data ++ ((c :: u') ++ l).takeWhile (fun x => !isJsSpace x),
                 ((c :: u') ++ l).dropWhile (fun x => !isJsSpace x))) =
    some ("https://".data ++ (c :: u'), l)
  rw [hc]
  simp only [Bool.false_eq_true, if_false, hTD.1, hTD.2]

theorem urlMatchAt_http (c : Char) (u' l : List Char)
    (hc : isJsSpace c = false) (hall : ∀ x ∈ u', isJsSpace x = false)
    (hl : l = [] ∨ ∃ d l', l = d :: l' ∧ isJsSpace d = true) :
    urlMatchAt ("http://".data ++ ((c :: u') ++ l)) =
      some ("http://".data ++ (c :: u'), l) := by
  have hdl0 : dropLit ("https://".data) ("http://".data ++ ((c :: u') ++ l)) = none := by
    show dropLit ("https://".data) ('h' :: 't' :: 't' :: 'p' :: ':' :: '/' :: '/' ::
      ((c :: u') ++ l)) = none
    rfl
  have hdl : dropLit ("http://".data) ("http://".data ++ ((c :: u') ++ l)) =
      some ((c :: u') ++ l) := dropLit_self _ _
  have hTD := takeWhile_dropWhile_append (p := fun x => !isJsSpace x) (c :: u') l
    (by
      intro x hx
      rcases List.mem_cons.mp hx with rfl | hx'
      · simp [hc]
      · simp [hall x hx'])
    (by
      rcases hl with rfl | ⟨d, l', rfl, hd⟩
      · exact Or.inl rfl
      · exact Or.inr ⟨d, l', rfl, by simp [hd]⟩)
  unfold urlMatchAt
  rw [hdl0, hdl]
  show (if isJsSpace c = true then none
      else some ("http://".data ++ ((c :: u') ++ l).takeWhile (fun x => !isJsSpace x),
                 ((c :: u') ++ l).dropWhile (fun x => !isJsSpace x))) =
    some ("http://".data ++ (c :: u'), l)
  rw [hc]
  simp only [Bool.false_eq_true, if_false, hTD.1, hTD.2]

theorem findUrls_https_url (c : Char) (u' l : List Char)
    (hc : isJsSpace c = false) (hall : ∀ x ∈ u', isJsSpace x = false)
    (hl : l = [] ∨ ∃ d l', l = d :: l' ∧ isJsSpace d = true) :
    findUrls (("https://".data ++ (c :: u')) ++ l) =
      ("https://".data ++ (c :: u')) :: findUrls l := by
  rw [List.append_assoc]
  exact findUrls_cons_some (urlMatchAt_https c u' l hc hall hl)

theorem findUrls_http_url (c : Char) (u' l : List Char)
    (hc : isJsSpace c = false) (hall : ∀ x ∈ u', isJsSpace x = false)
    (hl : l = [] ∨ ∃ d l', l = d :: l' ∧ isJsSpace d = true) :
    findUrls (("http://".data ++ (c :: u')) ++ l) =
      ("http://".data ++ (c :: u')) :: findUrls l := by
  rw [List.append_assoc]
  exact findUrls_cons_some (urlMatchAt_http c u' l hc hall hl)

/-- Claim C8: `calculateTweetLength` counts each embedded http(s) URL as
exactly 23 characters regardless of its actual length (text length minus
each URL's length plus 23 per URL): the documented example evaluates to
16 + 23 = 39, the same text with any other non-space URL tail still
evaluates to 39, and a text with two URLs of arbitrary non-space tails has
each URL contribute exactly 23. -/
theorem calculateTweetLength_url_counts_23 :
    calculateTweetLength "Check this out: https://example.com/very/long/url/path" = 39 ∧
    (∀ (c : Char) (u' : List Char), isJsSpace c = false →
      (∀ x ∈ u', isJsSpace x = false) →
      calculateTweetLength
        (String.mk ("Check this out: ".data ++ ("https://".data ++ (c :: u')))) = 39) ∧
    (∀ (c d : Char) (u' v' : List Char), isJsSpace c = false → isJsSpace d = false →
      (∀ x ∈ u', isJsSpace x = false) → (∀ x ∈ v', isJsSpace x = false) →
      calculateTweetLength (String.mk
        ("A ".data ++ (("https://".data ++ (c :: u')) ++
          (" B ".data ++ ("http://".data ++ (d :: v')))))) = 51) := by
  refine ⟨by decide, ?_, ?_⟩
  · intro c u' hc hall
    have hurls : findUrls ("Check this out: ".data ++ (("https://".data ++ (c :: u')) ++ []))
        = [("https://".data ++ (c :: u'))] := by
      rw [findUrls_append_of_noUrlStart "Check this out: ".data _ (by decide),
        findUrls_https_url c u' [] hc hall (Or.inl rfl)]
      rfl
    rw [List.append_nil] at hurls
    simp only [calculateTweetLength, hurls]
    have h16 : ("Check this out: ".data).length = 16 := rfl
    have h8 : ("https://".data).length = 8 := rfl
    simp only [List.length_append, List.length_cons, h16, h8, List.map_cons,
      List.map_nil, List.sum_cons, List.sum_nil, List.length_singleton,
      List.length_nil, TWITTER_URL_LENGTH]
    push_cast
    ring
  · intro c d u' v' hc hd hallu hallv
    have hurls : findUrls
        ("A ".data ++ (("https://".data ++ (c :: u')) ++
          (" B ".data ++ ("http://".data ++ (d :: v'))))) =
        [("https://".data ++ (c :: u')), ("http://".data ++ (d :: v'))] := by
      rw [findUrls_append_of_noUrlStart "A ".data _ (by decide),
        findUrls_https_url c u' (" B ".data ++ ("http://".data ++ (d :: v'))) hc hallu
          (Or.inr ⟨' ', _, rfl, by decide⟩)]
      have hrest : findUrls (" B ".data ++ ("http://".data ++ (d :: v'))) =
          [("http://".data ++ (d :: v'))] := by
        have hsplit : " B ".data ++ ("http://".data ++ (d :: v')) =
            " B ".data ++ (("http://".data ++ (d :: v')) ++ []) := by simp
        rw [hsplit, findUrls_append_of_noUrlStart " B ".data _ (by decide),
          findUrls_http_url d v' [] hd hallv (Or.inl rfl)]
        rfl
      rw [hrest]
    simp only [calculateTweetLength, hurls]
    have h2 : ("A ".data).length = 2 := rfl
    have h3 : (" B ".data).length = 3 := rfl
    have h8 : ("https://".data).length = 8 := rfl
    have h7 : ("http://".data).length = 7 := rfl
    simp only [List.length_append, List.length_cons, h2, h3, h8, h7, List.map_cons,
      List.map_nil, List.sum_cons, List.sum_nil, TWITTER_URL_LENGTH,
      List.length_singleton, List.length_nil]
    push_cast
    ring

/-- Witness for C8. -/
theorem calculateTweetLength_url_counts_23_witness :
    calculateTweetLength (String.mk ("Check this out: ".data ++
      ("https://".data ++ ('x' :: "yz".data)))) = 39 ∧
    calculateTweetLength (String.mk ("A ".data ++ (("https://".data ++ ('x' :: [])) ++
      (" B ".data ++ ("http://".data ++ ('y' :: [])))))) = 51 :=
  ⟨calculateTweetLength_url_counts_23.2.1 'x' ("yz".data) (by decide) (by decide),
   calculateTweetLength_url_counts_23.2.2 'x' 'y' [] [] (by decide) (by decide)
     (by decide) (by decide)⟩
